import Mathlib

/-!
Verification of the Bilibili user-dynamic crawler against its design spec.

The development shallowly embeds the two source files:
* `bilibili_dynamic_parser.py` — `BilibiliDynamicParser`: per-item field
  extraction from a captured HTML snapshot;
* `raw_bilibili_scraper.py` — `RawBilibiliScraper.scrape_raw` (traditional
  mode): the scroll/convergence loop.

A feed item node is embedded as the record of the CSS-query results the
parser reads from it (the spec's own design note: abstract node access
behind query/getText operations). Python strings are `String`, with the
string operations the code uses (`startswith`, `in`, `strip`, `split`,
the two `re.search` patterns) re-implemented on `List Char`. `\d` of the
patterns is modelled as the ASCII digits. Python exceptions are `Option`
or `Except` results.
-/

namespace BilibiliVerify

/-! ## Character-list string primitives (Python `str` operations) -/

/-- Python `needle == haystack[:len(needle)]`, i.e. `str.startswith`. -/
def isPrefixChars : List Char → List Char → Bool
  | [], _ => true
  | _ :: _, [] => false
  | a :: as, b :: bs => a = b && isPrefixChars as bs

/-- Python `needle in haystack`: contiguous-substring containment. -/
def containsChars (needle : List Char) : List Char → Bool
  | [] => isPrefixChars needle []
  | c :: rest => isPrefixChars needle (c :: rest) || containsChars needle rest

/-- Longest digit prefix plus remainder: one greedy `\d*` / `\d+` step. -/
def takeDigits : List Char → List Char × List Char
  | [] => ([], [])
  | c :: r =>
    if c.isDigit then
      let p := takeDigits r
      (c :: p.1, p.2)
    else ([], c :: r)

/-- Decimal digit run to its numeric value (`int` on an all-digit string). -/
def digitsToNat (l : List Char) : Nat :=
  l.foldl (fun n c => n * 10 + (c.toNat - '0'.toNat)) 0

/-- Whitespace recognised by the model of Python `str.strip`/`str.split()`
(the ASCII whitespace; the code never meets other Unicode spacing). -/
def isWsChar (c : Char) : Bool :=
  c = ' ' || c = '\t' || c = '\n' || c = '\r'

/-- Python `str.strip()`. -/
def trimChars (l : List Char) : List Char :=
  ((l.dropWhile isWsChar).reverse.dropWhile isWsChar).reverse

/-! ## Date pattern `(\d{4}年\d{1,2}月\d{1,2}日)` (`_extract_publish_time`,
`_determine_dynamic_type`) -/

/-- Exactly `n` digits, returning them and the remainder (`\d{n}`). -/
def matchNDigits : Nat → List Char → Option (List Char × List Char)
  | 0, rest => some ([], rest)
  | _ + 1, [] => none
  | n + 1, c :: rest =>
    if c.isDigit then
      match matchNDigits n rest with
      | some (ds, r) => some (c :: ds, r)
      | none => none
    else none

/-- One literal character. -/
def matchLit (lit : Char) : List Char → Option (List Char)
  | [] => none
  | c :: rest => if c = lit then some rest else none

/-- Greedy `\d{1,2}` followed by a literal, with the regex engine's
backtracking: two digits are preferred, one is retried on failure. -/
def matchD12Lit (lit : Char) (s : List Char) : Option (List Char × List Char) :=
  match matchNDigits 2 s with
  | some (ds, r) =>
    match matchLit lit r with
    | some r2 => some (ds ++ [lit], r2)
    | none =>
      match matchNDigits 1 s with
      | some (ds1, r1) =>
        match matchLit lit r1 with
        | some r2 => some (ds1 ++ [lit], r2)
        | none => none
      | none => none
  | none =>
    match matchNDigits 1 s with
    | some (ds1, r1) =>
      match matchLit lit r1 with
      | some r2 => some (ds1 ++ [lit], r2)
      | none => none
    | none => none

/-- The date pattern anchored at the head of the input. -/
def matchDateAt (s : List Char) : Option (List Char) :=
  match matchNDigits 4 s with
  | none => none
  | some (y, r) =>
    match matchLit '年' r with
    | none => none
    | some r1 =>
      match matchD12Lit '月' r1 with
      | none => none
      | some (m, r2) =>
        match matchD12Lit '日' r2 with
        | none => none
        | some (d, _) => some (y ++ '年' :: (m ++ d))

/-- `re.search` for the date pattern: leftmost match of group 1. -/
def dateSearch : List Char → Option String
  | [] => none
  | c :: rest =>
    match matchDateAt (c :: rest) with
    | some m => some (String.mk m)
    | none => dateSearch rest

/-! ## The feed item node (`FeedItemNode`)

One `.bili-dyn-list__item` element, embedded as the results of every CSS
query `BilibiliDynamicParser` runs against it. A `none` / empty field is a
missing node. Text fields hold the `get_text(strip=True)` result of the
queried node. Because `parse` calls the extractors in a fixed order and
`_extract_text_content` decomposes (destroys) the `img`/`svg` children of
the rich-text node before `_extract_images` runs, `imgSrcs` is the list of
`img[src]` src attributes as seen by `_extract_images`, i.e. already
without the decomposed rich-text icons. -/
structure Item where
  /-- `.bili-dyn-title__text` text. -/
  titleText : Option String
  /-- `.bili-dyn-time` text. -/
  timeText : Option String
  /-- `.bili-rich-text__content` text before any decomposition
  (what `_determine_dynamic_type` reads). -/
  richText : Option String
  /-- `.bili-rich-text__content` text after its `img`/`svg` children are
  decomposed (what `_extract_text_content` reads). -/
  richTextStripped : Option String
  /-- `.bili-dyn-card-video__desc` text. -/
  videoDesc : Option String
  /-- `src` attributes of the `img[src]` matches, in document order. -/
  imgSrcs : List String
  /-- `srcset` attributes of the `source[srcset]` matches. -/
  sourceSrcsets : List String
  /-- `.bili-dyn-action.like` text. -/
  likeText : Option String
  /-- `.bili-dyn-action.comment` text. -/
  commentText : Option String
  /-- `.bili-dyn-action.forward` text. -/
  shareText : Option String
  /-- `.bili-dyn-card-video__title` text. -/
  videoTitle : Option String
  /-- `href` attribute of `.bili-dyn-card-video[href]`. -/
  videoHref : Option String
  /-- `src` of `.bili-dyn-card-video__cover img[src]`. -/
  coverSrc : Option String
  /-- `.duration-time` text. -/
  durationText : Option String
  /-- whether `.bili-dyn-card-video` matches. -/
  hasVideoCard : Bool
  /-- whether `.bili-album` matches. -/
  hasAlbum : Bool
deriving DecidableEq, Repr

/-! ## URL handling and the exclusion list -/

/-- Protocol-relative rewrite applied throughout the parser:
`if url.startswith('//'): url = 'https:' + url`. -/
def normalizeUrl (u : String) : String :=
  if isPrefixChars ['/', '/'] u.data then "https:" ++ u else u

/-- `_load_excluded_images`: each line stripped, blank lines dropped
 (the Python `set` only affects duplicate entries, which are irrelevant
 to the containment checks, so a list is kept). -/
def load_excluded_images (lines : List String) : List String :=
  (lines.map (fun l => String.mk (trimChars l.data))).filter (fun s => s ≠ "")

/-- `_is_excluded_image`: empty URLs are never excluded; the URL is
normalized first, then any exclusion entry contained in it excludes it. -/
def is_excluded_image (excl : List String) (u : String) : Bool :=
  if u = "" then false
  else excl.any (fun e => containsChars e.data (normalizeUrl u).data)

/-! ## Field extractors (`_extract_*`) -/

/-- `_extract_username`. -/
def extract_username (it : Item) : String :=
  (it.titleText).getD "未知用户"

/-- `_extract_publish_time`: the date-pattern match if any, else the raw
 trimmed time text, else the default. -/
def extract_publish_time (it : Item) : String :=
  match it.timeText with
  | some t =>
    match dateSearch t.data with
    | some d => d
    | none => t
  | none => "未知时间"

/-- `_extract_text_content`: rich-text content with icons stripped, else
the video description, else empty. -/
def extract_text_content (it : Item) : String :=
  let t := (it.richTextStripped).getD ""
  if t = "" then (it.videoDesc).getD "" else t

/-! ## Classification (`_determine_dynamic_type`) -/

/-- The hardcoded pinned-post sentinel date. -/
def sentinelDate : String := "2022年05月14日"

/-- The hardcoded pinned-post sentinel text. -/
def sentinelText : String :=
  "永远要相信自己 并且坚定的往自己想要去的方向前进 梦想一旦开始就很难停止"

/-- The pinned-post test: the date extracted from the time node equals the
sentinel date, and the rich-text content node exists and its text
 *contains* the sentinel string. -/
def pinnedCheck (it : Item) : Bool :=
  match it.timeText with
  | none => false
  | some t =>
    match dateSearch t.data with
    | none => false
    | some d =>
      if d = sentinelDate then
        match it.richText with
        | some c => containsChars sentinelText.data c.data
        | none => false
      else false

/-- Whether the time node text contains the submitted-a-video marker
`投稿了视频`. -/
def timeHasSubmit (it : Item) : Bool :=
  match it.timeText with
  | none => false
  | some t => containsChars "投稿了视频".data t.data

/-- `_determine_dynamic_type`: pinned sentinel first, then video card
 (submitted vs plain video), then gallery, then plain text. -/
def determine_dynamic_type (it : Item) : String :=
  if pinnedCheck it then "置顶动态"
  else if it.hasVideoCard then
    if timeHasSubmit it then "投稿视频动态" else "动态视频"
  else if it.hasAlbum then "带图片的文本动态"
  else "纯文本动态"

/-! ## Image extraction (`_extract_images`) -/

/-- `set.add`: the Python set is modelled as an insertion-ordered
deduplicated list (within one process the set iteration order is a fixed
function of the inserted values, and no claim depends on which fixed
order it is). -/
def insertDedup (l : List String) (s : String) : List String :=
  if s ∈ l then l else l ++ [s]

/-- First loop of `_extract_images`: every non-empty, non-excluded
`img[src]` source, normalized then added to the set. -/
def addImgs (excl : List String) : List String → List String → List String
  | acc, [] => acc
  | acc, src :: rest =>
    if src ≠ "" && !(is_excluded_image excl src) then
      addImgs excl (insertDedup acc (normalizeUrl src)) rest
    else addImgs excl acc rest

/-- `srcset.split(',')[0]`: the characters before the first comma. -/
def firstCommaChunk : List Char → List Char
  | [] => []
  | c :: r => if c = ',' then [] else c :: firstCommaChunk r

/-- `srcset.split(',')[0].strip().split()[0]`: `none` is the `IndexError`
raised when the first comma chunk is blank. -/
def firstSrcsetUrl (srcset : String) : Option String :=
  match trimChars (firstCommaChunk srcset.data) with
  | [] => none
  | c :: r => some (String.mk ((c :: r).takeWhile (fun d => !isWsChar d)))

/-- Second loop of `_extract_images` over `source[srcset]`; `none`
propagates the `IndexError` of a blank srcset head out of the item. -/
def addSources (excl : List String) : List String → List String → Option (List String)
  | acc, [] => some acc
  | acc, srcset :: rest =>
    if srcset = "" then addSources excl acc rest
    else
      match firstSrcsetUrl srcset with
      | none => none
      | some src =>
        if src ≠ "" && !(is_excluded_image excl src) then
          addSources excl (insertDedup acc (normalizeUrl src)) rest
        else addSources excl acc rest

/-- `_extract_images`; `none` when the srcset indexing raises. -/
def extract_images (excl : List String) (it : Item) : Option (List String) :=
  addSources excl (addImgs excl [] it.imgSrcs) it.sourceSrcsets

/-! ## Interaction counts (`_extract_interaction_counts`)

The like pattern is `(\d+(?:\.\d+)?[万]?\d*)`. Every element after the
leading `\d+` is optional and none of them competes with it for digits,
so plain greedy matching (no backtracking) is the regex's behaviour. -/

/-- The like pattern anchored at the head; `none` when no digit leads. -/
def likeTokenAt (s : List Char) : Option (List Char) :=
  match takeDigits s with
  | ([], _) => none
  | (d1, r1) =>
    let fracRest : List Char × List Char :=
      match r1 with
      | '.' :: r =>
        match takeDigits r with
        | ([], _) => ([], r1)
        | (ds, r2) => ('.' :: ds, r2)
      | _ => ([], r1)
    let wanRest : List Char × List Char :=
      match fracRest.2 with
      | '万' :: r => (['万'], r)
      | _ => ([], fracRest.2)
    some (d1 ++ fracRest.1 ++ wanRest.1 ++ (takeDigits wanRest.2).1)

/-- `re.search` for the like pattern: leftmost match of group 1. -/
def likeSearch : List Char → Option (List Char)
  | [] => none
  | c :: rest =>
    match likeTokenAt (c :: rest) with
    | some g => some g
    | none => likeSearch rest

/-- Characters before the first `'.'` and the characters after it
(`([all], [])` when there is none). -/
def splitDot : List Char → List Char × List Char
  | [] => ([], [])
  | c :: r =>
    if c = '.' then ([], r)
    else
      let p := splitDot r
      (c :: p.1, p.2)

/-- `int(float(g) * 10000)` for a digit string `g` possibly holding one
`'.'`: exact rational arithmetic realised as integer division. The code
computes this with a binary double; on the decimal counter texts the
page produces the two agree, and the claims' examples are float-exact. -/
def wanValue (g : List Char) : Nat :=
  let p := splitDot g
  (digitsToNat p.1 * 10 ^ p.2.length + digitsToNat p.2) * 10000 / 10 ^ p.2.length

/-- Python `int(g)` on a regex group: digits parse, a remaining `'.'`
raises `ValueError` (`none`). -/
def pyIntParse (g : List Char) : Option Nat :=
  if g.any (fun c => !c.isDigit) then none else some (digitsToNat g)

/-- Like-count extraction (lines 186-197): `none` models the uncaught
`ValueError` of `int` on a decimal group without the `万` marker. -/
def extract_like (likeText : Option String) : Option Nat :=
  match likeText with
  | none => some 0
  | some t =>
    match likeSearch t.data with
    | none => some 0
    | some g =>
      if containsChars ['万'] g then
        some (wanValue (g.filter (fun c => c ≠ '万')))
      else pyIntParse g

/-- `re.search(r'(\d+)', t)`: the leftmost maximal digit run. -/
def digitRunSearch : List Char → Option (List Char)
  | [] => none
  | c :: rest =>
    if c.isDigit then some (takeDigits (c :: rest)).1
    else digitRunSearch rest

/-- Comment / share extraction: first integer in the text, default 0. -/
def plainCount (txt : Option String) : Nat :=
  match txt with
  | none => 0
  | some t =>
    match digitRunSearch t.data with
    | none => 0
    | some ds => digitsToNat ds

/-- `_extract_interaction_counts` as (like, comment, share); `none` when
the like branch raises. -/
def extract_interaction (it : Item) : Option (Nat × Nat × Nat) :=
  match extract_like it.likeText with
  | none => none
  | some l => some (l, plainCount it.commentText, plainCount it.shareText)

/-! ## Video info (`_extract_video_info`) -/

/-- The video-info dictionary, fields in source order. -/
structure VideoInfo where
  title : String
  cover : String
  duration : String
  link : String
deriving DecidableEq, Repr

/-- `_extract_video_info`: each field independently defaulted to `""`;
the cover is dropped when empty or excluded; link and cover are
protocol-normalized; the link is not run through the exclusion list. -/
def extract_video_info (excl : List String) (it : Item) : VideoInfo :=
  { title := (it.videoTitle).getD ""
    cover :=
      match it.coverSrc with
      | none => ""
      | some s =>
        if s ≠ "" && !(is_excluded_image excl s) then normalizeUrl s else ""
    duration := (it.durationText).getD ""
    link :=
      match it.videoHref with
      | none => ""
      | some h => normalizeUrl h }

/-! ## The record pipeline (`parse`) -/

/-- One `dynamic_info` dictionary; the video fields are present exactly
when the dynamic type is a video variant. -/
structure Record where
  username : String
  publish_time : String
  dynamic_type : String
  text_content : String
  images : List String
  like_count : Nat
  comment_count : Nat
  share_count : Nat
  video : Option VideoInfo
deriving DecidableEq, Repr

/-- The body of `parse`'s per-item `try`: `none` is a raised exception
 (srcset `IndexError` or like-count `ValueError`). -/
def extractItem (excl : List String) (it : Item) : Option Record :=
  match extract_images excl it with
  | none => none
  | some imgs =>
    match extract_interaction it with
    | none => none
    | some counts =>
      let dt := determine_dynamic_type it
      some
        { username := extract_username it
          publish_time := extract_publish_time it
          dynamic_type := dt
          text_content := extract_text_content it
          images := imgs
          like_count := counts.1
          comment_count := counts.2.1
          share_count := counts.2.2
          video :=
            if dt = "投稿视频动态" ∨ dt = "动态视频" then
              some (extract_video_info excl it)
            else none }

/-- The item loop of `parse`: a raising item is logged and skipped, the
loop continues. -/
def parseItems (excl : List String) : List Item → List Record
  | [] => []
  | it :: rest =>
    match extractItem excl it with
    | some r => r :: parseItems excl rest
    | none => parseItems excl rest

/-- `BilibiliDynamicParser.parse`: on a failed snapshot read it returns a
fresh empty list; otherwise it appends the extracted records to the
accumulated `self.dynamics` (never cleared between calls) and returns
that list. The function is total: no exception escapes it. -/
def parse (excl : List String) (dynamics : List Record)
    (file : Except String (List Item)) : List Record :=
  match file with
  | Except.error _ => []
  | Except.ok items => dynamics ++ parseItems excl items

/-! ## The scroll loop of `RawBilibiliScraper.scrape_raw` (traditional
mode, lines 120-237)

Each iteration of the `while True` loop is one scroll cycle. The
real-time polling inside a cycle is abstracted into the boolean outcomes
of its observation points; timing-only state (`scroll_count` pauses and
the `max_wait_time` adjustment, which is clamped to `[3, 12]` and only
changes how long the first wait lasts) has no effect on the control flow
and is not carried. -/

/-- The driver observations of one scroll cycle. -/
structure CycleInput where
  /-- the `你已经到达世界的尽头` end marker is present at the cycle start
  (line 123). -/
  endMarker : Bool
  /-- the `暂无动态` no-content marker is present (line 132). -/
  noDynMarker : Bool
  /-- growth (height or item count) is observed during the first, polled
  wait before `max_wait_time` elapses (line 159). -/
  growth1 : Bool
  /-- the end marker appears mid-poll during the first wait, before any
  growth (line 166): the poll stops without touching the stall counter. -/
  markerMid : Bool
  /-- the item count re-sampled by `final_check` (line 182) differs from
  the count at the cycle start. -/
  growthFinal : Bool
  /-- height growth is observed by the second, `WebDriverWait` wait
  (line 204). -/
  growth2 : Bool
  /-- the end marker is present at the height re-check after the second
  wait (line 224). -/
  markerEnd : Bool
deriving DecidableEq, Repr

/-- Why the scroll loop broke. -/
inductive ExitKind where
  | endOfWorld
  | noDynamic
  | stallConfirmed
deriving DecidableEq, Repr

/-- One iteration of the `while True` loop over the stall counter
`no_new_content_count`: `Sum.inl` is a `break` with its reason, `Sum.inr`
the counter passed to the next cycle. The counter is incremented at
*two* points per cycle — the first wait's timeout branch (line 176) and
the second wait's timeout branch (line 210) — and the loop breaks as
soon as it reaches 3 (subject to the `final_check` re-sample at the
first point). -/
def scrollCycle (cnt : Nat) (i : CycleInput) : ExitKind ⊕ Nat :=
  if i.endMarker then Sum.inl ExitKind.endOfWorld
  else if i.noDynMarker then Sum.inl ExitKind.noDynamic
  else
    let phase1 : ExitKind ⊕ Nat :=
      if i.growth1 then Sum.inr 0
      else if i.markerMid then Sum.inr cnt
      else if 3 ≤ cnt + 1 && !i.growthFinal then Sum.inl ExitKind.stallConfirmed
      else Sum.inr (cnt + 1)
    match phase1 with
    | Sum.inl e => Sum.inl e
    | Sum.inr c1 =>
      if i.growth2 then Sum.inr 0
      else if 3 ≤ c1 + 1 then Sum.inl ExitKind.stallConfirmed
      else if i.markerEnd then Sum.inl ExitKind.endOfWorld
      else Sum.inr (c1 + 1)

/-- The scroll loop run against a simulated page (`page n` are the
observations of cycle `n`), from stall counter `cnt` at cycle `n`, with
`fuel` cycles allowed: the index of the cycle in which the loop breaks,
with the break reason, or `none` if it is still running. -/
def runScraper (page : Nat → CycleInput) : Nat → Nat → Nat → Option (Nat × ExitKind)
  | _, _, 0 => none
  | cnt, n, fuel + 1 =>
    match scrollCycle cnt (page n) with
    | Sum.inl e => some (n, e)
    | Sum.inr c => runScraper page c (n + 1) fuel

/-- A cycle observing no growth and no marker anywhere. -/
def frozenCycle : CycleInput :=
  { endMarker := false, noDynMarker := false, growth1 := false,
    markerMid := false, growthFinal := false, growth2 := false,
    markerEnd := false }

/-- `scrape_raw` around its scroll loop (lines 70-248): the `try` body
either completes with the collected raw data or raises carrying the data
collected so far. The `except` clause only prints; the `finally` clause
executes `return self.raw_html_data`, and a `return` in a Python
`finally` discards any in-flight exception — so the caller always
receives a normal list, never the exception. -/
def scrape_raw_outcome (body : Except (String × List String) (List String)) :
    Except String (List String) :=
  match body with
  | Except.ok d => Except.ok d
  | Except.error e => Except.ok e.2

/-! ## General lemmas about the string primitives -/

/-- `isPrefixChars` is list-prefix. -/
theorem isPrefixChars_iff (a : List Char) : ∀ b : List Char,
    isPrefixChars a b = true ↔ ∃ t, b = a ++ t := by
  induction a with
  | nil => intro b; simp [isPrefixChars]
  | cons x xs ih =>
    intro b
    cases b with
    | nil => simp [isPrefixChars]
    | cons y ys =>
      simp only [isPrefixChars, Bool.and_eq_true, decide_eq_true_eq, ih,
        List.cons_append, List.cons.injEq]
      constructor
      · rintro ⟨rfl, t, rfl⟩; exact ⟨t, rfl, rfl⟩
      · rintro ⟨t, rfl, rfl⟩; exact ⟨rfl, t, rfl⟩

/-- A list is a prefix of itself extended. -/
theorem isPrefixChars_append_self (l t : List Char) :
    isPrefixChars l (l ++ t) = true :=
  (isPrefixChars_iff l (l ++ t)).mpr ⟨t, rfl⟩

/-- `containsChars` is contiguous-sublist containment. -/
theorem containsChars_iff (n : List Char) : ∀ h : List Char,
    containsChars n h = true ↔ ∃ p s, h = p ++ n ++ s := by
  intro h
  induction h with
  | nil =>
    simp only [containsChars, isPrefixChars_iff]
    constructor
    · rintro ⟨t, ht⟩; exact ⟨[], t, ht⟩
    · rintro ⟨p, s, hps⟩
      rcases List.append_eq_nil.mp (List.append_eq_nil.mp hps.symm).1 with ⟨rfl, rfl⟩
      exact ⟨s, hps⟩
  | cons c r ih =>
    simp only [containsChars, Bool.or_eq_true, isPrefixChars_iff, ih]
    constructor
    · rintro (⟨t, ht⟩ | ⟨p, s, hps⟩)
      · exact ⟨[], t, by simpa using ht⟩
      · exact ⟨c :: p, s, by simp [hps]⟩
    · rintro ⟨p, s, hps⟩
      cases p with
      | nil => exact Or.inl ⟨s, by simpa using hps⟩
      | cons q qs =>
        right
        simp only [List.cons_append, List.cons.injEq] at hps
        exact ⟨qs, s, hps.2⟩

/-- One-character containment is membership. -/
theorem containsChars_singleton (x : Char) : ∀ l : List Char,
    containsChars [x] l = true ↔ x ∈ l := by
  intro l
  induction l with
  | nil => simp [containsChars, isPrefixChars]
  | cons c r ih =>
    simp only [containsChars, isPrefixChars, Bool.and_eq_true, Bool.or_eq_true,
      decide_eq_true_eq, ih, List.mem_cons]
    constructor
    · rintro (⟨rfl, _⟩ | hm)
      · exact Or.inl rfl
      · exact Or.inr hm
    · rintro (rfl | hm)
      · exact Or.inl ⟨rfl, by simp [isPrefixChars]⟩
      · exact Or.inr hm

/-- A character absent from a list is not contained in it. -/
theorem containsChars_singleton_of_ne (x : Char) (l : List Char)
    (h : ∀ c ∈ l, c ≠ x) : containsChars [x] l = false := by
  rw [← Bool.not_eq_true, containsChars_singleton]
  intro hx
  exact h x hx rfl

/-- A nonempty needle is not contained in the empty list. -/
theorem containsChars_nil_of_ne (n : List Char) (h : n ≠ []) :
    containsChars n [] = false := by
  cases n with
  | nil => exact absurd rfl h
  | cons c r => rfl

/-- A nonempty string has a nonempty character list. -/
theorem data_ne_nil {s : String} (h : s ≠ "") : s.data ≠ [] := by
  intro hd
  apply h
  cases s with
  | mk d => simp only [String.data] at hd; simp [hd]

/-! ## Claim C1 (corrected)

The spec's state machine increments the stall counter once per scroll
cycle, so "`Terminal` after exactly `stallThreshold` (= 3) further
no-growth cycles". The loop in the code increments the counter at two
wait points per scroll cycle, so a page frozen from cycle 0 on breaks in
cycle index 1 (the second no-growth cycle, when the counter reaches 3),
not in cycle index 2 (which "exactly three further cycles" would give). -/

/-- C1, counterexample: on the page frozen from the start (count and
height never grow, no markers ever), the loop breaks with the
stall-confirmed exit in cycle index 1 — during the second no-growth
cycle — and not in cycle index 2, where the claimed "exactly
`stallThreshold` = 3 further no-growth cycles" would put it. -/
theorem c1_counterexample :
    runScraper (fun _ => frozenCycle) 0 0 10 =
      some (1, ExitKind.stallConfirmed) ∧
    runScraper (fun _ => frozenCycle) 0 0 10 ≠
      some (2, ExitKind.stallConfirmed) := by
  exact ⟨rfl, by decide⟩

/-- C1, amended: with the stall counter reset, a page that never grows
again and never shows a marker makes the loop break with the
stall-confirmed exit during the *second* further no-growth scroll cycle
(the counter is incremented at two wait points per cycle and the loop
breaks when it reaches 3); and whenever the end-of-world marker is
present at the start of a cycle, the loop breaks immediately in that
cycle, whatever the stall counter. -/
theorem c1_amended (page : Nat → CycleInput) (n fuel : Nat)
    (hfrozen : ∀ m, n ≤ m → page m = frozenCycle) (hfuel : 2 ≤ fuel) :
    runScraper page 0 n fuel = some (n + 1, ExitKind.stallConfirmed) ∧
    (∀ (q : Nat → CycleInput) (cnt k f : Nat), (q k).endMarker = true →
      runScraper q cnt k (f + 1) = some (k, ExitKind.endOfWorld)) := by
  constructor
  · obtain ⟨f, rfl⟩ : ∃ f, fuel = f + 1 + 1 := ⟨fuel - 2, by omega⟩
    have h0 : page n = frozenCycle := hfrozen n (Nat.le_refl n)
    have h1 : page (n + 1) = frozenCycle := hfrozen (n + 1) (Nat.le_succ n)
    have e0 : scrollCycle 0 frozenCycle = Sum.inr 2 := rfl
    have e2 : scrollCycle 2 frozenCycle = Sum.inl ExitKind.stallConfirmed := rfl
    simp only [runScraper, h0, h1, e0, e2]
  · intro q cnt k f hq
    have : scrollCycle cnt (q k) = Sum.inl ExitKind.endOfWorld := by
      unfold scrollCycle
      simp [hq]
    simp only [runScraper, this]

/-- C1, witness for `c1_amended` at the everywhere-frozen page. -/
theorem c1_witness :
    (∀ m, 0 ≤ m → (fun _ : Nat => frozenCycle) m = frozenCycle) ∧ 2 ≤ 2 ∧
    runScraper (fun _ => frozenCycle) 0 0 2 =
      some (0 + 1, ExitKind.stallConfirmed) :=
  ⟨fun _ _ => rfl, Nat.le_refl 2,
    (c1_amended (fun _ => frozenCycle) 0 2 (fun _ _ => rfl) (Nat.le_refl 2)).1⟩

/-! ## Claim C9 (corrected)

The `finally` clause of `scrape_raw` executes `return self.raw_html_data`,
which in Python discards the in-flight exception: a fatal driver fault is
caught, logged, and turned into a normal return of the partial (normally
empty) data list. The attempt is indeed aborted and never retried, but
nothing is propagated to the caller. -/

/-- C9, counterexample: a boot-timeout fault raised inside the `try` body
makes `scrape_raw` return the ordinary empty data list; the error is not
propagated to the caller. -/
theorem c9_counterexample :
    scrape_raw_outcome (Except.error ("TimeoutException", [])) =
      Except.ok [] ∧
    scrape_raw_outcome (Except.error ("TimeoutException", [])) ≠
      Except.error "TimeoutException" :=
  ⟨rfl, fun h => Except.noConfusion h⟩

/-- C9, amended: a fatal driver fault aborts the attempt — the body is
not re-run — but the exception is swallowed: `scrape_raw` returns the
raw data collected so far as a normal value, and no call ever surfaces
an error to the caller. -/
theorem c9_amended (body : Except (String × List String) (List String))
    (e : String) (d : List String) (h : body = Except.error (e, d)) :
    scrape_raw_outcome body = Except.ok d ∧
    ∀ e2 : String, scrape_raw_outcome body ≠ Except.error e2 := by
  subst h
  exact ⟨rfl, fun _ h2 => Except.noConfusion h2⟩

/-- C9, witness for `c9_amended` at a concrete navigation fault. -/
theorem c9_witness :
    scrape_raw_outcome (Except.error ("navigation error", ["partial"])) =
      Except.ok ["partial"] ∧
    ∀ e2 : String,
      scrape_raw_outcome (Except.error ("navigation error", ["partial"])) ≠
        Except.error e2 :=
  c9_amended _ "navigation error" ["partial"] rfl

/-! ## Claim C10 (confirmed) -/

/-- C10: when the snapshot file cannot be read, `parse` raises nothing —
the read failure is caught inside it and the model is a total function —
and returns the empty record sequence. -/
theorem c10_unreadable_returns_empty (excl : List String)
    (dynamics : List Record) (err : String) :
    parse excl dynamics (Except.error err) = [] := rfl

/-! ## Concrete items used by counterexamples and witnesses -/

/-- An item with every queried node missing: extraction yields the
all-default plain-text record. -/
def emptyItem : Item :=
  { titleText := none, timeText := none, richText := none,
    richTextStripped := none, videoDesc := none, imgSrcs := [],
    sourceSrcsets := [], likeText := none, commentText := none,
    shareText := none, videoTitle := none, videoHref := none,
    coverSrc := none, durationText := none, hasVideoCard := false,
    hasAlbum := false }

/-! ## Claim C2 (corrected)

The pinned check runs before the video-card check, so an item carrying
the pinned sentinel classifies `置顶动态` even when a video card and a
gallery are both present; video > gallery > text only holds among
non-pinned items. The "never `ImagePost`" half survives. -/

/-- A pinned sentinel item that also carries a video card and a gallery. -/
def c2Item : Item :=
  { emptyItem with
    timeText := some "2022年05月14日"
    richText := some sentinelText
    hasVideoCard := true
    hasAlbum := true }

/-- C2, counterexample: an item with both a video-card node and a gallery
node that matches the pinned sentinel classifies `置顶动态`, which is
neither of the two video variants — the stated "any item containing both
… is classified as a video variant" fails. -/
theorem c2_counterexample :
    c2Item.hasVideoCard = true ∧ c2Item.hasAlbum = true ∧
    determine_dynamic_type c2Item = "置顶动态" ∧
    determine_dynamic_type c2Item ≠ "投稿视频动态" ∧
    determine_dynamic_type c2Item ≠ "动态视频" := by
  refine ⟨rfl, rfl, by decide, by decide, by decide⟩

/-- C2, amended: among items that do not satisfy the pinned sentinel
check, the precedence is as claimed — a video card forces one of the two
video variants (never the image-post type, gallery or not), and an item
with neither video card nor gallery is the plain-text type. -/
theorem c2_amended (it : Item) (h : pinnedCheck it = false) :
    (it.hasVideoCard = true →
      (determine_dynamic_type it = "投稿视频动态" ∨
        determine_dynamic_type it = "动态视频") ∧
      determine_dynamic_type it ≠ "带图片的文本动态") ∧
    (it.hasVideoCard = false → it.hasAlbum = false →
      determine_dynamic_type it = "纯文本动态") := by
  constructor
  · intro hv
    by_cases hs : timeHasSubmit it = true
    · simp [determine_dynamic_type, h, hv, hs]
    · simp only [Bool.not_eq_true] at hs
      simp [determine_dynamic_type, h, hv, hs]
  · intro hv ha
    simp [determine_dynamic_type, h, hv, ha]

/-- C2, witness for `c2_amended`: a non-pinned item carrying both a video
card and a gallery. -/
theorem c2_witness :
    pinnedCheck { emptyItem with hasVideoCard := true, hasAlbum := true } = false ∧
    (({ emptyItem with hasVideoCard := true, hasAlbum := true } : Item).hasVideoCard = true →
      (determine_dynamic_type { emptyItem with hasVideoCard := true, hasAlbum := true } = "投稿视频动态" ∨
        determine_dynamic_type { emptyItem with hasVideoCard := true, hasAlbum := true } = "动态视频") ∧
      determine_dynamic_type { emptyItem with hasVideoCard := true, hasAlbum := true } ≠ "带图片的文本动态") :=
  ⟨rfl, (c2_amended { emptyItem with hasVideoCard := true, hasAlbum := true } rfl).1⟩

/-! ## Claim C3 (corrected)

The pinned text condition in the code is substring *containment* on the
raw rich-text node, not equality of the extracted text body: an item on
the sentinel date whose text strictly extends the sentinel string is
still classified pinned. -/

/-- A sentinel-date item whose text strictly extends the sentinel. -/
def c3Item : Item :=
  { emptyItem with
    timeText := some "2022年05月14日"
    richText := some (sentinelText ++ "！")
    richTextStripped := some (sentinelText ++ "！") }

/-- C3, counterexample: an item matching the sentinel date whose text
body does not equal the sentinel string (it strictly contains it) is
nevertheless classified `置顶动态` — both the "iff" and the "never
Pinned" clauses of the claim fail. -/
theorem c3_counterexample :
    extract_publish_time c3Item = sentinelDate ∧
    extract_text_content c3Item ≠ sentinelText ∧
    determine_dynamic_type c3Item = "置顶动态" := by
  refine ⟨by decide, by decide, by decide⟩

/-- Helper: the date search finds the sentinel date in itself. -/
theorem dateSearch_sentinelDate :
    dateSearch sentinelDate.data = some sentinelDate := by decide

/-- Helper: the extracted publish time equals the sentinel date exactly
when the date pattern extracts the sentinel date from the time node. -/
theorem publish_time_eq_sentinel (it : Item) :
    extract_publish_time it = sentinelDate ↔
      ∃ t, it.timeText = some t ∧ dateSearch t.data = some sentinelDate := by
  cases htt : it.timeText with
  | none =>
    simp only [extract_publish_time, htt]
    constructor
    · intro h; exact absurd h (by decide)
    · rintro ⟨t, ht, _⟩; exact Option.noConfusion ht
  | some t =>
    cases hds : dateSearch t.data with
    | none =>
      simp only [extract_publish_time, htt, hds, Option.some.injEq]
      constructor
      · intro h
        rw [h] at hds
        rw [dateSearch_sentinelDate] at hds
        exact Option.noConfusion hds
      · rintro ⟨t', rfl, hd⟩
        rw [hds] at hd
        exact Option.noConfusion hd
    | some d =>
      simp only [extract_publish_time, htt, hds, Option.some.injEq]
      constructor
      · intro h; exact ⟨t, rfl, by rw [hds, h]⟩
      · rintro ⟨t', rfl, hd⟩
        rw [hds] at hd
        injection hd

/-- Helper: what the pinned check tests. -/
theorem pinnedCheck_iff (it : Item) :
    pinnedCheck it = true ↔
      (∃ t, it.timeText = some t ∧ dateSearch t.data = some sentinelDate) ∧
      (∃ c, it.richText = some c ∧
        containsChars sentinelText.data c.data = true) := by
  cases htt : it.timeText with
  | none =>
    simp only [pinnedCheck, htt]
    constructor
    · intro h; exact Bool.noConfusion h
    · rintro ⟨⟨t, ht, _⟩, _⟩; exact Option.noConfusion ht
  | some t =>
    cases hds : dateSearch t.data with
    | none =>
      simp only [pinnedCheck, htt, hds, Option.some.injEq]
      constructor
      · intro h; exact Bool.noConfusion h
      · rintro ⟨⟨t', rfl, hd⟩, _⟩
        rw [hds] at hd
        exact Option.noConfusion hd
    | some d =>
      by_cases hd : d = sentinelDate
      · subst hd
        cases hrc : it.richText with
        | none =>
          simp only [pinnedCheck, htt, hds, hrc, Option.some.injEq,
            eq_self_iff_true, if_true]
          constructor
          · intro h
            exact Bool.noConfusion h
          · rintro ⟨_, c, hc, _⟩; exact Option.noConfusion hc
        | some c =>
          simp only [pinnedCheck, htt, hds, hrc, Option.some.injEq,
            eq_self_iff_true, if_true]
          constructor
          · intro h; exact ⟨⟨t, rfl, hds⟩, c, rfl, h⟩
          · rintro ⟨_, c', rfl, hcc⟩
            exact hcc
      · simp only [pinnedCheck, htt, hds, Option.some.injEq]
        rw [if_neg hd]
        constructor
        · intro h; exact Bool.noConfusion h
        · rintro ⟨⟨t', rfl, hsd⟩, _⟩
          rw [hds] at hsd
          exact ((hd (by injection hsd)).elim : false = true)

/-- Helper: only the pinned branch produces the pinned label. -/
theorem determine_eq_pinned_iff (it : Item) :
    determine_dynamic_type it = "置顶动态" ↔ pinnedCheck it = true := by
  unfold determine_dynamic_type
  by_cases hp : pinnedCheck it = true
  · simp [hp]
  · simp only [Bool.not_eq_true] at hp
    simp only [hp, if_false]
    by_cases hv : it.hasVideoCard = true
    · by_cases hs : timeHasSubmit it = true
      · simp [hv, hs, hp]
      · simp only [Bool.not_eq_true] at hs
        simp [hv, hs, hp]
    · simp only [Bool.not_eq_true] at hv
      by_cases ha : it.hasAlbum = true
      · simp [hv, ha, hp]
      · simp only [Bool.not_eq_true] at ha
        simp [hv, ha, hp]

/-- C3, amended: an item is classified `置顶动态` iff its extracted
publish date equals the sentinel date AND its raw rich-text content node
exists and *contains* the sentinel string as a substring (containment,
not equality, and tested on the un-stripped node text rather than on the
extracted text body). -/
theorem c3_amended (it : Item) :
    determine_dynamic_type it = "置顶动态" ↔
      (extract_publish_time it = sentinelDate ∧
        ∃ c, it.richText = some c ∧
          containsChars sentinelText.data c.data = true) := by
  rw [determine_eq_pinned_iff, pinnedCheck_iff, publish_time_eq_sentinel]

/-! ## Claim C8 (corrected)

`parse` appends to `self.dynamics`, which is initialised once in
`__init__` and never cleared: a second call on the same parser re-reads
the same snapshot and appends every record again, returning the doubled
list. The extraction itself is deterministic — only a fresh parser state
reproduces the first sequence. -/

/-- C8, counterexample: parsing the same one-item snapshot twice on the
same parser state returns a different (doubled) sequence the second
time. -/
theorem c8_counterexample :
    parse [] (parse [] [] (Except.ok [emptyItem])) (Except.ok [emptyItem]) ≠
      parse [] [] (Except.ok [emptyItem]) := by decide

/-- C8, amended: a second `parse` call on the same parser state returns
the concatenation of the first result with itself — each record
duplicated, in order — and therefore differs from the first result
whenever any record was extracted; identical sequences are only obtained
by re-parsing from a fresh (empty) parser state. -/
theorem c8_amended (excl : List String) (items : List Item) :
    parse excl (parse excl [] (Except.ok items)) (Except.ok items) =
      parse excl [] (Except.ok items) ++ parse excl [] (Except.ok items) ∧
    (parse excl [] (Except.ok items) ≠ [] →
      parse excl (parse excl [] (Except.ok items)) (Except.ok items) ≠
        parse excl [] (Except.ok items)) := by
  constructor
  · simp [parse]
  · intro hne heq
    simp only [parse, List.nil_append] at hne heq
    have hlen := congrArg List.length heq
    rw [List.length_append] at hlen
    have hz : (parseItems excl items).length = 0 := by omega
    exact hne (List.eq_nil_of_length_eq_zero hz)

/-- C8, witness for `c8_amended` at the one-item snapshot. -/
theorem c8_witness :
    parse [] [] (Except.ok [emptyItem]) ≠ [] ∧
    parse [] (parse [] [] (Except.ok [emptyItem])) (Except.ok [emptyItem]) ≠
      parse [] [] (Except.ok [emptyItem]) :=
  ⟨by decide, (c8_amended [] [emptyItem]).2 (by decide)⟩

/-! ## Claim C4 (confirmed): like-count parsing -/

/-- `takeDigits` takes exactly an all-digit prefix bounded by a
non-digit (or the end). -/
theorem takeDigits_all (a : List Char) : ∀ b : List Char,
    (∀ c ∈ a, c.isDigit = true) →
    (∀ c, b.head? = some c → c.isDigit = false) →
    takeDigits (a ++ b) = (a, b) := by
  induction a with
  | nil =>
    intro b _ hb
    cases b with
    | nil => rfl
    | cons c r =>
      have hc := hb c rfl
      simp [takeDigits, hc]
  | cons x xs ih =>
    intro b ha hb
    have hx : x.isDigit = true := ha x (by simp)
    have ih2 := ih b (fun c hc => ha c (by simp [hc])) hb
    simp [takeDigits, hx, ih2]

/-- `takeDigits` consumes an all-digit list whole. -/
theorem takeDigits_all_nil (a : List Char)
    (ha : ∀ c ∈ a, c.isDigit = true) : takeDigits a = (a, []) := by
  have h := takeDigits_all a [] ha (fun c hc => Option.noConfusion hc)
  simpa using h

/-- A digit is not the `万` marker. -/
theorem digit_ne_wan (c : Char) (hc : c.isDigit = true) : c ≠ '万' := by
  intro h
  subst h
  exact absurd hc (by decide)

/-- The like pattern matches a `digits.digits万` text whole. -/
theorem likeTokenAt_wan (x : Char) (xs : List Char) (y : Char) (ys : List Char)
    (hipd : ∀ c ∈ x :: xs, c.isDigit = true)
    (hfpd : ∀ c ∈ y :: ys, c.isDigit = true) :
    likeTokenAt ((x :: xs) ++ '.' :: ((y :: ys) ++ ['万'])) =
      some ((x :: xs) ++ '.' :: ((y :: ys) ++ ['万'])) := by
  have h1 : takeDigits ((x :: xs) ++ '.' :: ((y :: ys) ++ ['万'])) =
      (x :: xs, '.' :: ((y :: ys) ++ ['万'])) := by
    refine takeDigits_all _ _ hipd ?_
    intro c hc
    simp only [List.head?_cons, Option.some.injEq] at hc
    subst hc
    decide
  have h2 : takeDigits ((y :: ys) ++ ['万']) = (y :: ys, ['万']) := by
    refine takeDigits_all _ _ hfpd ?_
    intro c hc
    simp only [List.head?_cons, Option.some.injEq] at hc
    subst hc
    decide
  simp only [likeTokenAt, h1, h2]
  simp [takeDigits]

/-- The like pattern matches an all-digit text whole. -/
theorem likeTokenAt_digits (x : Char) (xs : List Char)
    (hipd : ∀ c ∈ x :: xs, c.isDigit = true) :
    likeTokenAt (x :: xs) = some (x :: xs) := by
  have h1 : takeDigits (x :: xs) = (x :: xs, []) :=
    takeDigits_all_nil _ hipd
  simp only [likeTokenAt, h1]
  simp [takeDigits]

/-- `likeSearch` finds no match in a digit-free text. -/
theorem likeSearch_none (l : List Char) (h : ∀ c ∈ l, c.isDigit = false) :
    likeSearch l = none := by
  induction l with
  | nil => rfl
  | cons c r ih =>
    have hc : c.isDigit = false := h c (by simp)
    have ht : takeDigits (c :: r) = ([], c :: r) := by simp [takeDigits, hc]
    have htok : likeTokenAt (c :: r) = none := by simp only [likeTokenAt, ht]
    simp only [likeSearch, htok]
    exact ih (fun d hd => h d (by simp [hd]))

/-- `splitDot` on a dot-free list. -/
theorem splitDot_no_dot (a : List Char) (ha : ∀ c ∈ a, c ≠ '.') :
    splitDot a = (a, []) := by
  induction a with
  | nil => rfl
  | cons c r ih =>
    have hc : c ≠ '.' := ha c (by simp)
    have ih2 := ih (fun d hd => ha d (by simp [hd]))
    simp [splitDot, hc, ih2]

/-- `splitDot` splits at the first dot. -/
theorem splitDot_append (a : List Char) (b : List Char)
    (ha : ∀ c ∈ a, c ≠ '.') : splitDot (a ++ '.' :: b) = (a, b) := by
  induction a with
  | nil => simp [splitDot]
  | cons c r ih =>
    have hc : c ≠ '.' := ha c (by simp)
    have ih2 := ih (fun d hd => ha d (by simp [hd]))
    simp [splitDot, hc, ih2]

/-- C4: (1) a like text of the form `⟨digits⟩.⟨digits⟩万` yields the
decimal prefix multiplied by 10000 and truncated to an integer (realised
exactly as `(I·10^k + F)·10000 / 10^k` for integer part `I` and `k`
fractional digits `F`); (2) a plain all-digit text yields that integer;
(3) an absent like node yields 0; (4) a digit-free (unparsable) text
yields 0. In all four cases no exception is raised (`some _`). -/
theorem c4_like_parsing (ip fp : List Char) (t : String)
    (hip : ip ≠ []) (hipd : ∀ c ∈ ip, c.isDigit = true)
    (hfp : fp ≠ []) (hfpd : ∀ c ∈ fp, c.isDigit = true)
    (ht : ∀ c ∈ t.data, c.isDigit = false) :
    extract_like (some (String.mk (ip ++ '.' :: (fp ++ ['万'])))) =
      some ((digitsToNat ip * 10 ^ fp.length + digitsToNat fp) * 10000 /
        10 ^ fp.length) ∧
    extract_like (some (String.mk ip)) = some (digitsToNat ip) ∧
    extract_like none = some 0 ∧
    extract_like (some t) = some 0 := by
  obtain ⟨x, xs, rfl⟩ : ∃ x xs, ip = x :: xs := by
    cases ip with
    | nil => exact absurd rfl hip
    | cons x xs => exact ⟨x, xs, rfl⟩
  obtain ⟨y, ys, rfl⟩ : ∃ y ys, fp = y :: ys := by
    cases fp with
    | nil => exact absurd rfl hfp
    | cons y ys => exact ⟨y, ys, rfl⟩
  refine ⟨?_, ?_, rfl, ?_⟩
  · -- the `万` case
    have htok := likeTokenAt_wan x xs y ys hipd hfpd
    have hsearch : likeSearch ((x :: xs) ++ '.' :: ((y :: ys) ++ ['万'])) =
        some ((x :: xs) ++ '.' :: ((y :: ys) ++ ['万'])) := by
      show likeSearch (x :: (xs ++ '.' :: ((y :: ys) ++ ['万']))) = _
      simp only [likeSearch]
      have htok2 : likeTokenAt (x :: (xs ++ '.' :: ((y :: ys) ++ ['万']))) =
          some ((x :: xs) ++ '.' :: ((y :: ys) ++ ['万'])) := htok
      simp only [htok2]
    have hwan : containsChars ['万']
        ((x :: xs) ++ '.' :: ((y :: ys) ++ ['万'])) = true :=
      (containsChars_singleton _ _).mpr (by simp)
    have hfilter : ((x :: xs) ++ '.' :: ((y :: ys) ++ ['万'])).filter
        (fun c => c ≠ '万') = (x :: xs) ++ '.' :: (y :: ys) := by
      have hassoc : (x :: xs) ++ '.' :: ((y :: ys) ++ ['万']) =
          ((x :: xs) ++ '.' :: (y :: ys)) ++ ['万'] := by simp
      rw [hassoc, List.filter_append]
      have hkeep : List.filter (fun c => decide (c ≠ '万'))
          ((x :: xs) ++ '.' :: (y :: ys)) = (x :: xs) ++ '.' :: (y :: ys) := by
        rw [List.filter_eq_self]
        intro a ha
        rcases List.mem_append.mp ha with h | h
        · simpa using digit_ne_wan a (hipd a h)
        · rcases List.mem_cons.mp h with rfl | h2
          · decide
          · simpa using digit_ne_wan a (hfpd a h2)
      rw [hkeep]
      simp
    have hdot : splitDot ((x :: xs) ++ '.' :: (y :: ys)) = (x :: xs, y :: ys) :=
      splitDot_append _ _ (fun c hc h => by
        subst h
        exact absurd (hipd '.' hc) (by decide))
    simp only [extract_like]
    rw [hsearch]
    simp only [hwan, if_true]
    rw [hfilter]
    simp only [wanValue, hdot]
  · -- the plain-integer case
    have htok := likeTokenAt_digits x xs hipd
    have hsearch : likeSearch (x :: xs) = some (x :: xs) := by
      simp only [likeSearch, htok]
    have hnowan : containsChars ['万'] (x :: xs) = false :=
      containsChars_singleton_of_ne _ _
        (fun c hc => digit_ne_wan c (hipd c hc))
    have hall : (x :: xs).any (fun c => !c.isDigit) = false := by
      rw [List.any_eq_false]
      intro c hc
      simp [hipd c hc]
    simp only [extract_like]
    rw [hsearch]
    simp only [hnowan, Bool.false_eq_true, if_false, pyIntParse, hall]
  · -- the digit-free case
    have := likeSearch_none t.data ht
    simp only [extract_like, this]

/-- C4, witness: the claim's own examples — `"3.5万"` parses to 35000,
`"128"` to 128, an absent node and the digit-free `"转发"` to 0. -/
theorem c4_witness :
    extract_like (some "3.5万") = some 35000 ∧
    extract_like (some "128") = some 128 ∧
    extract_like none = some 0 ∧
    extract_like (some "转发") = some 0 := by
  have h1 := c4_like_parsing ['3'] ['5'] "转发" (by decide) (by decide)
    (by decide) (by decide) (by decide)
  have h2 := c4_like_parsing ['1', '2', '8'] ['0'] "转发" (by decide)
    (by decide) (by decide) (by decide) (by decide)
  exact ⟨h1.1, h2.2.1, h1.2.2.1, h1.2.2.2⟩

/-! ## Claim C7 (confirmed): per-item fault isolation -/

/-- The item loop distributes over concatenation. -/
theorem parseItems_append (excl : List String) (a : List Item) :
    ∀ b : List Item,
    parseItems excl (a ++ b) = parseItems excl a ++ parseItems excl b := by
  induction a with
  | nil => intro b; rfl
  | cons it rest ih =>
    intro b
    simp only [List.cons_append, parseItems]
    cases hx : extractItem excl it with
    | none => exact ih b
    | some r => simp [ih b]

/-- A list of non-faulting items yields one record per item. -/
theorem parseItems_length_ok (excl : List String) (l : List Item)
    (h : ∀ j ∈ l, extractItem excl j ≠ none) :
    (parseItems excl l).length = l.length := by
  induction l with
  | nil => rfl
  | cons it rest ih =>
    cases hx : extractItem excl it with
    | none => exact absurd hx (h it (by simp))
    | some r =>
      simp only [parseItems, hx, List.length_cons]
      rw [ih (fun j hj => h j (by simp [hj]))]

/-- C7: when exactly one item of the snapshot faults during extraction,
the pass does not abort — the faulting item is skipped, and the result
is exactly the records of the non-faulting items, in document order (one
record per surviving item, before-records first). -/
theorem c7_single_fault_isolated (excl : List String)
    (pre post : List Item) (bad : Item)
    (hpre : ∀ j ∈ pre, extractItem excl j ≠ none)
    (hpost : ∀ j ∈ post, extractItem excl j ≠ none)
    (hbad : extractItem excl bad = none) :
    parseItems excl (pre ++ bad :: post) =
      parseItems excl pre ++ parseItems excl post ∧
    (parseItems excl pre).length = pre.length ∧
    (parseItems excl post).length = post.length := by
  refine ⟨?_, parseItems_length_ok excl pre hpre,
    parseItems_length_ok excl post hpost⟩
  rw [parseItems_append]
  simp only [parseItems, hbad]

/-- A like text on which `int()` raises `ValueError`: the extraction of
this item faults. -/
def badItem : Item := { emptyItem with likeText := some "3.5" }

/-- A healthy item distinct from `emptyItem`. -/
def titledItem : Item := { emptyItem with titleText := some "某用户" }

/-- C7, witness: a three-item snapshot whose middle item faults yields
exactly the two records of the healthy items, in order. -/
theorem c7_witness :
    extractItem [] badItem = none ∧
    parseItems [] ([emptyItem] ++ badItem :: [titledItem]) =
      parseItems [] [emptyItem] ++ parseItems [] [titledItem] ∧
    (parseItems [] [emptyItem]).length = 1 ∧
    (parseItems [] [titledItem]).length = 1 :=
  ⟨by decide,
    (c7_single_fault_isolated [] [emptyItem] [titledItem] badItem
      (by decide) (by decide) (by decide)).1,
    (c7_single_fault_isolated [] [emptyItem] [titledItem] badItem
      (by decide) (by decide) (by decide)).2.1,
    (c7_single_fault_isolated [] [emptyItem] [titledItem] badItem
      (by decide) (by decide) (by decide)).2.2⟩

/-! ## Provenance of extracted image URLs (for C5 and C6) -/

/-- Membership after a set insertion. -/
theorem mem_insertDedup {l : List String} {s u : String}
    (h : u ∈ insertDedup l s) : u ∈ l ∨ u = s := by
  unfold insertDedup at h
  by_cases hs : s ∈ l
  · rw [if_pos hs] at h
    exact Or.inl h
  · rw [if_neg hs] at h
    rcases List.mem_append.mp h with h1 | h1
    · exact Or.inl h1
    · exact Or.inr (by simpa using h1)

/-- Every URL produced by the `img[src]` loop is either already in the
accumulator or the normalization of a non-empty, non-excluded source. -/
theorem mem_addImgs (excl : List String) : ∀ (srcs acc : List String)
    (u : String), u ∈ addImgs excl acc srcs →
    u ∈ acc ∨ ∃ s, s ∈ srcs ∧ s ≠ "" ∧ is_excluded_image excl s = false ∧
      u = normalizeUrl s := by
  intro srcs
  induction srcs with
  | nil =>
    intro acc u h
    exact Or.inl h
  | cons s rest ih =>
    intro acc u h
    unfold addImgs at h
    by_cases hc : (s ≠ "" && !is_excluded_image excl s) = true
    · rw [if_pos hc] at h
      obtain ⟨hs1, hs2⟩ : s ≠ "" ∧ is_excluded_image excl s = false := by
        simpa [Bool.and_eq_true] using hc
      rcases ih _ u h with h1 | ⟨s', hs', h2, h3, h4⟩
      · rcases mem_insertDedup h1 with h2 | rfl
        · exact Or.inl h2
        · exact Or.inr ⟨s, by simp, hs1, hs2, rfl⟩
      · exact Or.inr ⟨s', by simp [hs'], h2, h3, h4⟩
    · rw [if_neg hc] at h
      rcases ih _ u h with h1 | ⟨s', hs', h2, h3, h4⟩
      · exact Or.inl h1
      · exact Or.inr ⟨s', by simp [hs'], h2, h3, h4⟩

/-- Every URL produced by the `source[srcset]` loop is either already in
the accumulator or the normalization of a non-empty, non-excluded first
srcset candidate. -/
theorem mem_addSources (excl : List String) : ∀ (ss acc out : List String),
    addSources excl acc ss = some out → ∀ u ∈ out,
    u ∈ acc ∨ ∃ srcset s, srcset ∈ ss ∧ firstSrcsetUrl srcset = some s ∧
      s ≠ "" ∧ is_excluded_image excl s = false ∧ u = normalizeUrl s := by
  intro ss
  induction ss with
  | nil =>
    intro acc out h u hu
    obtain rfl : acc = out := by simpa [addSources] using h
    exact Or.inl hu
  | cons srcset rest ih =>
    intro acc out h u hu
    unfold addSources at h
    by_cases he : srcset = ""
    · rw [if_pos he] at h
      rcases ih _ _ h u hu with h1 | ⟨ss', s', h2, h3, h4, h5, h6⟩
      · exact Or.inl h1
      · exact Or.inr ⟨ss', s', by simp [h2], h3, h4, h5, h6⟩
    · rw [if_neg he] at h
      cases hf : firstSrcsetUrl srcset with
      | none => rw [hf] at h; exact Option.noConfusion h
      | some src =>
        simp only [hf] at h
        by_cases hc : (src ≠ "" && !is_excluded_image excl src) = true
        · rw [if_pos hc] at h
          obtain ⟨hs1, hs2⟩ : src ≠ "" ∧ is_excluded_image excl src = false := by
            simpa [Bool.and_eq_true] using hc
          rcases ih _ _ h u hu with h1 | ⟨ss', s', h2, h3, h4, h5, h6⟩
          · rcases mem_insertDedup h1 with h2 | rfl
            · exact Or.inl h2
            · exact Or.inr ⟨srcset, src, by simp, hf, hs1, hs2, rfl⟩
          · exact Or.inr ⟨ss', s', by simp [h2], h3, h4, h5, h6⟩
        · rw [if_neg hc] at h
          rcases ih _ _ h u hu with h1 | ⟨ss', s', h2, h3, h4, h5, h6⟩
          · exact Or.inl h1
          · exact Or.inr ⟨ss', s', by simp [h2], h3, h4, h5, h6⟩

/-- Provenance of `_extract_images` output: every produced URL is the
normalization of some non-empty input source URL that passed the
exclusion check. -/
theorem extract_images_mem (excl : List String) (it : Item)
    (imgs : List String) (h : extract_images excl it = some imgs) :
    ∀ u ∈ imgs, ∃ s, s ≠ "" ∧ is_excluded_image excl s = false ∧
      u = normalizeUrl s ∧
      (s ∈ it.imgSrcs ∨
        ∃ srcset, srcset ∈ it.sourceSrcsets ∧ firstSrcsetUrl srcset = some s) := by
  intro u hu
  unfold extract_images at h
  rcases mem_addSources excl it.sourceSrcsets _ imgs h u hu with
    h1 | ⟨srcset, s, h2, h3, h4, h5, h6⟩
  · rcases mem_addImgs excl it.imgSrcs [] u h1 with h2 | ⟨s, h3, h4, h5, h6⟩
    · exact absurd h2 (List.not_mem_nil u)
    · exact ⟨s, h4, h5, h6, Or.inl h3⟩
  · exact ⟨s, h4, h5, h6, Or.inr ⟨srcset, h2, h3⟩⟩

/-- A URL that passed the exclusion check contains no exclusion entry
after normalization (which is exactly the stored form). -/
theorem not_excluded_contains (excl : List String) (s : String)
    (hs : s ≠ "") (h : is_excluded_image excl s = false) :
    ∀ e ∈ excl, containsChars e.data (normalizeUrl s).data = false := by
  unfold is_excluded_image at h
  rw [if_neg hs] at h
  intro e he
  by_contra hcc
  rw [Bool.not_eq_false] at hcc
  have : excl.any (fun e => containsChars e.data (normalizeUrl s).data) = true :=
    List.any_eq_true.mpr ⟨e, he, hcc⟩
  rw [h] at this
  exact Bool.noConfusion this

/-- Exclusion entries loaded from the list file are never empty. -/
theorem load_excluded_ne_empty (lines : List String) :
    ∀ e ∈ load_excluded_images lines, e ≠ "" := by
  intro e he
  have := List.of_mem_filter he
  simpa using this

/-! ## Claim C5 (confirmed): exclusion containment -/

/-- The cover produced by `_extract_video_info` is either empty or the
normalization of a cover source that passed the exclusion check. -/
theorem extract_video_info_cover (excl : List String) (it : Item) :
    (extract_video_info excl it).cover = "" ∨
    ∃ s, s ≠ "" ∧ is_excluded_image excl s = false ∧
      (extract_video_info excl it).cover = normalizeUrl s := by
  unfold extract_video_info
  cases hcs : it.coverSrc with
  | none => exact Or.inl rfl
  | some s =>
    by_cases hc : (s ≠ "" && !is_excluded_image excl s) = true
    · obtain ⟨h1, h2⟩ : s ≠ "" ∧ is_excluded_image excl s = false := by
        simpa [Bool.and_eq_true] using hc
      refine Or.inr ⟨s, h1, h2, ?_⟩
      show (if (s ≠ "" && !is_excluded_image excl s) = true then
        normalizeUrl s else "") = normalizeUrl s
      rw [if_pos hc]
    · refine Or.inl ?_
      show (if (s ≠ "" && !is_excluded_image excl s) = true then
        normalizeUrl s else "") = ""
      rw [if_neg hc]

/-- C5: for every record the parser produces and every entry of the
loaded exclusion list, no entry is contained as a substring in any of
the record's image URLs, nor in its video cover URL. -/
theorem c5_exclusion_containment (lines : List String) (it : Item)
    (r : Record)
    (h : extractItem (load_excluded_images lines) it = some r) :
    ∀ e ∈ load_excluded_images lines,
      (∀ u ∈ r.images, containsChars e.data u.data = false) ∧
      (∀ v, r.video = some v → containsChars e.data v.cover.data = false) := by
  intro e he
  have hene : e ≠ "" := load_excluded_ne_empty lines e he
  unfold extractItem at h
  cases hei : extract_images (load_excluded_images lines) it with
  | none => rw [hei] at h; exact Option.noConfusion h
  | some imgs =>
    simp only [hei] at h
    cases hic : extract_interaction it with
    | none => rw [hic] at h; exact Option.noConfusion h
    | some counts =>
      simp only [hic, Option.some.injEq] at h
      subst h
      constructor
      · intro u hu
        obtain ⟨s, hs1, hs2, rfl, _⟩ :=
          extract_images_mem (load_excluded_images lines) it imgs hei u hu
        exact not_excluded_contains _ s hs1 hs2 e he
      · intro v hv
        by_cases hdt : determine_dynamic_type it = "投稿视频动态" ∨
            determine_dynamic_type it = "动态视频"
        · have hv2 : (if determine_dynamic_type it = "投稿视频动态" ∨
              determine_dynamic_type it = "动态视频" then
                some (extract_video_info (load_excluded_images lines) it)
              else none) = some v := hv
          rw [if_pos hdt] at hv2
          obtain rfl : extract_video_info (load_excluded_images lines) it = v := by
            injection hv2
          rcases extract_video_info_cover (load_excluded_images lines) it with
            hcv | ⟨s, h1, h2, hcv⟩
          · rw [hcv]
            exact containsChars_nil_of_ne e.data (data_ne_nil hene)
          · rw [hcv]
            exact not_excluded_contains _ s h1 h2 e he
        · have hv3 : (if determine_dynamic_type it = "投稿视频动态" ∨
              determine_dynamic_type it = "动态视频" then
                some (extract_video_info (load_excluded_images lines) it)
              else none) = some v := hv
          rw [if_neg hdt] at hv3
          exact Option.noConfusion hv3

/-- A video item with one clean image, one image matching the exclusion
entry `hdslb`, and a protocol-relative cover. -/
def c5Item : Item :=
  { emptyItem with
    imgSrcs := ["//i0.test/a.png", "https://cdn.hdslb.test/x.png"]
    coverSrc := some "//cover.test/c.jpg"
    hasVideoCard := true }

/-- The record `c5Item` extracts to under the exclusion list `["hdslb"]`:
the excluded image is dropped, the survivors are normalized. -/
def c5Record : Record :=
  { username := "未知用户", publish_time := "未知时间",
    dynamic_type := "动态视频", text_content := "",
    images := ["https://i0.test/a.png"], like_count := 0,
    comment_count := 0, share_count := 0,
    video := some { title := "", cover := "https://cover.test/c.jpg",
                    duration := "", link := "" } }

/-- C5, witness for `c5_exclusion_containment` at `c5Item`. -/
theorem c5_witness :
    extractItem (load_excluded_images ["hdslb"]) c5Item = some c5Record ∧
    ∀ e ∈ load_excluded_images ["hdslb"],
      (∀ u ∈ c5Record.images, containsChars e.data u.data = false) ∧
      (∀ v, c5Record.video = some v →
        containsChars e.data v.cover.data = false) :=
  ⟨by decide, fun e he =>
    c5_exclusion_containment ["hdslb"] c5Item c5Record (by decide) e he⟩

/-! ## Claim C6 (corrected)

Protocol-relative inputs are indeed rewritten to `https://…`, but all
other inputs pass through unchanged: a relative input such as
`/local/img.png` reaches the output as-is, so not every output link is
scheme-qualified. -/

/-- An item whose only image source is a root-relative path. -/
def c6Item : Item := { emptyItem with imgSrcs := ["/local/img.png"] }

/-- C6, counterexample: the relative input `/local/img.png` is emitted
unchanged among the mediaLinks — it does not begin with `https://` and
contains no scheme separator at all, so the produced link is not
scheme-qualified. -/
theorem c6_counterexample :
    extract_images [] c6Item = some ["/local/img.png"] ∧
    isPrefixChars "https://".data "/local/img.png".data = false ∧
    containsChars "://".data "/local/img.png".data = false := by
  refine ⟨by decide, by decide, by decide⟩

/-- C6, amended: any URL beginning with `//` is normalized to begin with
`https://`; every produced mediaLink is the normalization of some input
source URL (img `src` or first srcset candidate), the video link is the
normalization of the `href` input, and the cover is empty or the
normalization of the cover `src` — inputs not beginning with `//` pass
through unchanged, so outputs are scheme-qualified only when those
inputs already are. -/
theorem c6_amended (excl : List String) (it : Item) (imgs : List String)
    (h : extract_images excl it = some imgs) :
    (∀ s : String, isPrefixChars ['/', '/'] s.data = true →
      isPrefixChars "https://".data (normalizeUrl s).data = true) ∧
    (∀ u ∈ imgs, ∃ s, u = normalizeUrl s ∧
      (s ∈ it.imgSrcs ∨
        ∃ srcset, srcset ∈ it.sourceSrcsets ∧
          firstSrcsetUrl srcset = some s)) ∧
    (∀ hr, it.videoHref = some hr →
      (extract_video_info excl it).link = normalizeUrl hr) ∧
    (∀ cs, it.coverSrc = some cs →
      (extract_video_info excl it).cover = "" ∨
      (extract_video_info excl it).cover = normalizeUrl cs) := by
  refine ⟨?_, ?_, ?_, ?_⟩
  · intro s hs
    obtain ⟨t, ht⟩ := (isPrefixChars_iff _ _).mp hs
    unfold normalizeUrl
    rw [if_pos hs, String.data_append, ht]
    rw [show "https://".data = "https:".data ++ ['/', '/'] by decide]
    rw [← List.append_assoc]
    exact isPrefixChars_append_self _ t
  · intro u hu
    obtain ⟨s, _, _, h6, hsrc⟩ := extract_images_mem excl it imgs h u hu
    exact ⟨s, h6, hsrc⟩
  · intro hr hhr
    unfold extract_video_info
    show (match it.videoHref with
      | none => ""
      | some h => normalizeUrl h) = normalizeUrl hr
    rw [hhr]
  · intro cs hcs
    unfold extract_video_info
    show (match it.coverSrc with
      | none => ""
      | some s =>
        if s ≠ "" && !is_excluded_image excl s then normalizeUrl s
        else "") = "" ∨
      (match it.coverSrc with
      | none => ""
      | some s =>
        if s ≠ "" && !is_excluded_image excl s then normalizeUrl s
        else "") = normalizeUrl cs
    rw [hcs]
    by_cases hc : (cs ≠ "" && !is_excluded_image excl cs) = true
    · right
      show (if (cs ≠ "" && !is_excluded_image excl cs) = true
        then normalizeUrl cs else "") = normalizeUrl cs
      rw [if_pos hc]
    · left
      show (if (cs ≠ "" && !is_excluded_image excl cs) = true
        then normalizeUrl cs else "") = ""
      rw [if_neg hc]

/-- C6, witness for `c6_amended`: the normalization part applied to a
concrete protocol-relative URL. -/
theorem c6_witness :
    extract_images [] emptyItem = some [] ∧
    isPrefixChars "https://".data (normalizeUrl "//cdn.test/a.png").data = true :=
  ⟨rfl, (c6_amended [] emptyItem [] rfl).1 "//cdn.test/a.png" (by decide)⟩

end BilibiliVerify
